import Mathlib

/-!
Verification model of the kd-rust tiered lookup-and-cache subsystem and
legacy-migration pipeline.

Shallow embedding notes:
* `QueryResult`, `QuerySource`, `OnlineSource`, `CollinsDisplayItem` mirror
  `src/domain/model.rs`.
* `query_word` mirrors `src/application/query.rs::query_word`.  The async
  environment (`AppState`, sqlite connection, HTTP client) is replaced by
  explicit parameters: the memory-cache lookup result, the database read
  outcome, the remote-provider outcome and the database write outcome.  The
  side effects (memory-cache inserts, database writes, whether the remote
  provider was called) are returned explicitly in `LookupEffects`.
* `convert_legacy` mirrors `src/application/update.rs::convert_legacy`, with
  the legacy `HashMap` fields modelled as association lists (`hmGet` models
  `HashMap::get`: first matching key wins; real maps have distinct keys).
* The migration loop of `src/application/update.rs::migrate_data` is modelled
  by `migStep` (one row of the `for` loop) / `migFinish` (the trailing partial
  batch flush) / `migrate_table` (the whole per-table loop).  The outcome of
  each `batch_insert_cache` call is abstracted as an oracle
  `flush : Nat → List (String × QueryResult) → Except KdError Nat` indexed by
  the number of flushes performed so far.
* `batch_insert_cache` mirrors
  `src/infrastructure/storage/db.rs::batch_insert_cache_impl` over a table
  modelled as a list of rows; serde serialization and zstd compression are
  abstracted as fallible parameters, and the transaction commit outcome as a
  boolean (row-level `stmt.execute` is modelled as succeeding).
-/

/-- Mirrors `OnlineSource` in `src/domain/model.rs`. -/
inductive OnlineSource where
  | youdao : OnlineSource
  | bing : OnlineSource
  | google : OnlineSource
deriving DecidableEq, Repr

/-- Mirrors `QuerySource` in `src/domain/model.rs`. -/
inductive QuerySource where
  | offlineDb : QuerySource
  | localCache : QuerySource
  | online : OnlineSource → QuerySource
deriving DecidableEq, Repr

/-- Mirrors `matches!(res.source, QuerySource::Online(_))` in
`src/application/query.rs`. -/
def QuerySource.isOnline : QuerySource → Bool
  | QuerySource.online _ => true
  | _ => false

/-- Mirrors `CollinsDisplayItem` in `src/domain/model.rs`. -/
structure CollinsDisplayItem where
  additional : Option String
  major_trans : Option String
  examples : List (String × String)
deriving DecidableEq, Repr

/-- Mirrors `QueryResult` in `src/domain/model.rs` (fields in declaration
order). -/
structure QueryResult where
  query : String
  found : Bool
  is_long_text : Bool
  pronunciation : Option String
  pronunciation_us : Option String
  pronunciation_uk : Option String
  translations : List String
  examples : List (String × String)
  collins_items : List CollinsDisplayItem
  collins_rank : Option String
  source : QuerySource
  cached_at : Option Int
deriving DecidableEq, Repr

/-- Mirrors `QueryResult::new` in `src/domain/model.rs`. -/
def QueryResult.new (query : String) (is_long_text : Bool) : QueryResult :=
  { query := query
    found := false
    is_long_text := is_long_text
    pronunciation := none
    pronunciation_us := none
    pronunciation_uk := none
    translations := []
    examples := []
    collins_items := []
    collins_rank := none
    source := QuerySource.online OnlineSource.youdao
    cached_at := none }

/-- Mirrors the variants of `KdError` in `src/domain/error.rs` (payloads
dropped; only the variant matters to the modelled control flow). -/
inductive KdError where
  | database : KdError
  | sqlite : KdError
  | http : KdError
  | json : KdError
  | io : KdError
  | toml : KdError
  | compression : KdError
  | config : KdError
  | init : KdError
  | api : KdError
  | time : KdError
deriving DecidableEq, Repr

/-- Side effects of one `query_word` call: memory-cache inserts
(`state.cache.insert`), database write-through calls (`insert_cache`), and
whether the remote provider (`query_youdao`) was invoked. -/
structure LookupEffects where
  cacheInserts : List (String × QueryResult)
  dbWrites : List (String × QueryResult)
  remoteCalled : Bool
deriving DecidableEq, Repr

/-- Steps 3 and 4 of `query_word` in `src/application/query.rs` (online query
and write-back), reached when both cache tiers miss or `no_cache` is set.
`remote` is the outcome of `query_youdao`, `dbPut` the outcome of
`insert_cache`. -/
def query_word_online (q : String) (no_cache is_long_text : Bool)
    (remote : Except KdError QueryResult)
    (dbPut : Except KdError Unit) (now : Int) :
    Except KdError QueryResult × LookupEffects :=
  match remote with
  | Except.error e =>
      (Except.error e, ⟨[], [], true⟩)
  | Except.ok r0 =>
      -- If needed, update is_long_text if not set by API
      let result := if is_long_text then { r0 with is_long_text := true } else r0
      -- 4. Write back to cache; only cache if found
      if !no_cache && result.found then
        let r2 := { result with cached_at := some now }
        match dbPut with
        | Except.error e => (Except.error e, ⟨[(q, r2)], [(q, r2)], true⟩)
        | Except.ok _ => (Except.ok r2, ⟨[(q, r2)], [(q, r2)], true⟩)
      else
        (Except.ok result, ⟨[], [], true⟩)

/-- Mirrors `query_word` in `src/application/query.rs`.  `cacheGet` is the
memory-cache lookup result for `q`, `dbGet` the outcome of
`query_cache(&state.db, q)` (note: in the source this outcome is unwrapped
with `?`), `remote` the outcome of `query_youdao`, `dbPut` the outcome of
`insert_cache`. -/
def query_word (q : String) (no_cache is_long_text : Bool)
    (cacheGet : Option QueryResult)
    (dbGet : Except KdError (Option QueryResult))
    (remote : Except KdError QueryResult)
    (dbPut : Except KdError Unit) (now : Int) :
    Except KdError QueryResult × LookupEffects :=
  -- 1. Memory Cache
  match (if !no_cache then cacheGet else none) with
  | some cached =>
      (Except.ok { cached with source := QuerySource.localCache }, ⟨[], [], false⟩)
  | none =>
      -- 2. Database Cache
      if !no_cache then
        match dbGet with
        | Except.error e =>
            -- the `?` on `query_cache(...).await?` propagates the error
            (Except.error e, ⟨[], [], false⟩)
        | Except.ok (some cached) =>
            -- update memory cache with the raw stored record, then relabel
            let res := { cached with
              source := if cached.source.isOnline then cached.source
                        else QuerySource.offlineDb }
            (Except.ok res, ⟨[(q, cached)], [], false⟩)
        | Except.ok none =>
            query_word_online q no_cache is_long_text remote dbPut now
      else
        query_word_online q no_cache is_long_text remote dbPut now

/-- Mirrors `CollinsItem` in `src/migration/legacy.rs`. -/
structure CollinsItem where
  additional : Option String
  major_trans : Option String
  examples : Option (List (List String))
deriving DecidableEq, Repr

/-- Mirrors `CollinsData` in `src/migration/legacy.rs`. -/
structure CollinsData where
  items : Option (List CollinsItem)
  star : Option Int
  rank : Option String
  additional_pattern : Option String
deriving DecidableEq, Repr

/-- Mirrors `LegacyResult` in `src/migration/legacy.rs`.  The
`HashMap<String, String>` and `HashMap<String, Vec<Vec<String>>>` fields are
modelled as association lists (keys distinct in a real map). -/
structure LegacyResult where
  keyword : Option String
  pronounce : Option (List (String × String))
  paraphrase : Option (List String)
  examples : Option (List (String × List (List String)))
  collins : Option CollinsData
deriving DecidableEq, Repr

/-- Models `HashMap::get` on the association-list rendering of a map. -/
def hmGet (m : List (String × String)) (k : String) : Option String :=
  (m.find? (fun p => p.1 == k)).map (fun p => p.2)

/-- Models `if pair.len() >= 2 { (pair[0], pair[1]) }` used when flattening
legacy example pairs in `convert_legacy`. -/
def pairOf : List String → Option (String × String)
  | a :: b :: _ => some (a, b)
  | _ => none

/-- The per-item Collins conversion inside the `for item in items` loop of
`convert_legacy` in `src/application/update.rs`: the converted item is kept
only if it has a major translation or at least one example. -/
def convertCollinsItem (item : CollinsItem) : Option CollinsDisplayItem :=
  let egs := match item.examples with
    | some egs => egs.filterMap pairOf
    | none => []
  let ci : CollinsDisplayItem :=
    { additional := item.additional, major_trans := item.major_trans, examples := egs }
  if ci.major_trans.isSome || !ci.examples.isEmpty then some ci else none

/-- The pronunciation block of `convert_legacy` in
`src/application/update.rs`: both Chinese keys (美/英) and English keys
(us/uk) are supported, the Chinese key tried first for each slot; the first
populated slot also seeds the backward-compatible `pronunciation` field. -/
def applyPron (pronounce : Option (List (String × String)))
    (result0 : QueryResult) : QueryResult :=
  match pronounce with
  | none => result0
  | some pron =>
      let rUs := match hmGet pron "美" with
        | some us => { result0 with
            pronunciation_us := some us, pronunciation := some us }
        | none => match hmGet pron "us" with
          | some us => { result0 with
              pronunciation_us := some us, pronunciation := some us }
          | none => result0
      match hmGet pron "英" with
      | some uk => { rUs with
          pronunciation_uk := some uk
          pronunciation :=
            if rUs.pronunciation.isNone then some uk else rUs.pronunciation }
      | none => match hmGet pron "uk" with
        | some uk => { rUs with
            pronunciation_uk := some uk
            pronunciation :=
              if rUs.pronunciation.isNone then some uk else rUs.pronunciation }
        | none => rUs

/-- Mirrors `convert_legacy` in `src/application/update.rs`. -/
def convert_legacy (legacy : LegacyResult) : QueryResult :=
  let keyword := legacy.keyword.getD "unknown"
  let result0 := { QueryResult.new keyword false with found := true }
  let result1 := applyPron legacy.pronounce result0
  let result2 := match legacy.paraphrase with
    | some para => { result1 with translations := para }
    | none => result1
  -- Handle examples from top-level eg field
  let result3 := match legacy.examples with
    | some egs =>
        { result2 with
          examples := result2.examples
            ++ egs.flatMap (fun cat => cat.2.filterMap pairOf) }
    | none => result2
  -- Handle Collins dictionary (co.li[].eg)
  let result4 := match legacy.collins with
    | none => result3
    | some collins =>
        let rRank := match collins.rank with
          | some rank => { result3 with collins_rank := some rank }
          | none => result3
        match collins.items with
        | none => rRank
        | some items =>
            { rRank with
              collins_items := rRank.collins_items
                ++ items.filterMap convertCollinsItem }
  { result4 with source := QuerySource.offlineDb }

/-- Loop state of the per-table migration loop in `migrate_data`
(`src/application/update.rs`): rows inserted so far, error counter, pending
batch, and how many `batch_insert_cache` calls were made so far (used to
index the flush oracle). -/
structure MigState where
  count : Nat
  error_count : Nat
  batch : List (String × QueryResult)
  flushes : Nat
deriving DecidableEq, Repr

/-- `BATCH_SIZE` in `migrate_data`. -/
def BATCH_SIZE : Nat := 100

/-- Models the per-row decompress-or-raw fallback in `migrate_data`:
`ZlibDecoder` output when decompression succeeds, the raw bytes otherwise. -/
def migRowBytes (zlibDec : List Nat → Option (List Nat)) (b : List Nat) : List Nat :=
  match zlibDec b with
  | some d => d
  | none => b

/-- One iteration of the `for (i, (query, detail_bytes)) in rows` loop of
`migrate_data` in `src/application/update.rs`.  `parseLegacy` models
`serde_json::from_slice::<LegacyResult>`, `flush` the outcome of the
`batch_insert_cache` call with the given flush index. -/
def migStep (zlibDec : List Nat → Option (List Nat))
    (parseLegacy : List Nat → Option LegacyResult)
    (flush : Nat → List (String × QueryResult) → Except KdError Nat)
    (st : MigState) (row : String × List Nat) : MigState :=
  match parseLegacy (migRowBytes zlibDec row.2) with
  | none => { st with error_count := st.error_count + 1 }
  | some legacy =>
      let batch := st.batch ++ [(row.1, convert_legacy legacy)]
      if batch.length ≥ BATCH_SIZE then
        match flush st.flushes batch with
        | Except.ok inserted =>
            { count := st.count + inserted
              error_count := st.error_count
              batch := []
              flushes := st.flushes + 1 }
        | Except.error _ =>
            { count := st.count
              error_count := st.error_count + BATCH_SIZE
              batch := []
              flushes := st.flushes + 1 }
      else
        { st with batch := batch }

/-- The trailing `if !batch.is_empty() { match batch_insert_cache(...) }`
after the loop in `migrate_data`: a failure of this final partial batch
increments the error counter by one in the source. -/
def migFinish (flush : Nat → List (String × QueryResult) → Except KdError Nat)
    (st : MigState) : MigState :=
  if st.batch.isEmpty then st
  else
    match flush st.flushes st.batch with
    | Except.ok inserted =>
        { st with count := st.count + inserted, batch := [], flushes := st.flushes + 1 }
    | Except.error _ =>
        { st with error_count := st.error_count + 1, batch := [], flushes := st.flushes + 1 }

/-- The whole per-table loop of `migrate_data` over the in-memory row set. -/
def migrate_table (zlibDec : List Nat → Option (List Nat))
    (parseLegacy : List Nat → Option LegacyResult)
    (flush : Nat → List (String × QueryResult) → Except KdError Nat)
    (rows : List (String × List Nat)) : MigState :=
  migFinish flush (rows.foldl (migStep zlibDec parseLegacy flush) ⟨0, 0, [], 0⟩)

/-- One row of the `cache` table in `src/infrastructure/storage/db.rs`
(`query TEXT PRIMARY KEY, data BLOB, compressed_size, original_size,
created_at, updated_at`). -/
structure CacheRow where
  query : String
  data : List Nat
  compressed_size : Nat
  original_size : Nat
  created_at : Int
  updated_at : Int
deriving DecidableEq, Repr

/-- `INSERT OR REPLACE` on the `cache` table keyed by `query`: replaces the
row with the same key, otherwise appends. -/
def insertOrReplace (t : List CacheRow) (r : CacheRow) : List CacheRow :=
  if t.any (fun row => row.query == r.query) then
    t.map (fun row => if row.query == r.query then r else row)
  else
    t ++ [r]

/-- The `prepared_items` construction of `batch_insert_cache_impl` in
`src/infrastructure/storage/db.rs`: serde serialization (`ser`) followed by
zstd compression (`comp`), items failing either step dropped by
`filter_map`, tupled with the two byte counts. -/
def prepareItems (ser : QueryResult → Option (List Nat))
    (comp : List Nat → Option (List Nat))
    (items : List (String × QueryResult)) :
    List (String × List Nat × Nat × Nat) :=
  items.filterMap (fun it =>
    match ser it.2 with
    | none => none
    | some serialized =>
      match comp serialized with
      | none => none
      | some compressed =>
          some (it.1, compressed, compressed.length, serialized.length))

/-- Mirrors `batch_insert_cache_impl` in `src/infrastructure/storage/db.rs`.
`commitFails` models the outcome of `tx.commit()`; per-row `stmt.execute` is
modelled as succeeding (the code counts only successful executes).  On
success the call returns the success count together with the updated table;
a commit failure is propagated as an error by the `?` on `db.call(...)`. -/
def batch_insert_cache (ser : QueryResult → Option (List Nat))
    (comp : List Nat → Option (List Nat)) (now : Int) (commitFails : Bool)
    (table : List CacheRow) (items : List (String × QueryResult)) :
    Except KdError (Nat × List CacheRow) :=
  let prepared := prepareItems ser comp items
  if prepared.isEmpty then
    Except.ok (0, table)
  else if commitFails then
    Except.error KdError.sqlite
  else
    Except.ok (prepared.length,
      prepared.foldl
        (fun t it => insertOrReplace t ⟨it.1, it.2.1, it.2.2.1, it.2.2.2, now, now⟩)
        table)

/-- JSON value tree, the intermediate form of `serde_json` between a Rust
value and its rendered byte text. -/
inductive Json where
  | null : Json
  | bool : Bool → Json
  | num : Int → Json
  | str : String → Json
  | arr : List Json → Json
  | obj : List (String × Json) → Json

/-- Serde serialization of an `Option<String>` field: `None` renders as
`null`. -/
def optStrToJson : Option String → Json
  | none => Json.null
  | some s => Json.str s

/-- Serde serialization of an `Option<i64>` field. -/
def optIntToJson : Option Int → Json
  | none => Json.null
  | some n => Json.num n

/-- Serde serialization of a `(String, String)` tuple: a two-element array. -/
def pairToJson (p : String × String) : Json :=
  Json.arr [Json.str p.1, Json.str p.2]

/-- Serde serialization of `CollinsDisplayItem` (derive, field order as
declared in `src/domain/model.rs`). -/
def collinsItemToJson (c : CollinsDisplayItem) : Json :=
  Json.obj
    [("additional", optStrToJson c.additional),
     ("major_trans", optStrToJson c.major_trans),
     ("examples", Json.arr (c.examples.map pairToJson))]

/-- Serde serialization of the externally tagged `OnlineSource` enum: unit
variants render as their name string. -/
def onlineSourceToJson : OnlineSource → Json
  | OnlineSource.youdao => Json.str "Youdao"
  | OnlineSource.bing => Json.str "Bing"
  | OnlineSource.google => Json.str "Google"

/-- Serde serialization of the externally tagged `QuerySource` enum: unit
variants render as their name string, the newtype variant `Online(p)` as
`{"Online": <p>}`. -/
def querySourceToJson : QuerySource → Json
  | QuerySource.offlineDb => Json.str "OfflineDb"
  | QuerySource.localCache => Json.str "LocalCache"
  | QuerySource.online p => Json.obj [("Online", onlineSourceToJson p)]

/-- Serde serialization of `QueryResult` (derive, field order as declared in
`src/domain/model.rs`), the value `serde_json::to_vec` renders in
`insert_cache_impl`. -/
def queryResultToJson (r : QueryResult) : Json :=
  Json.obj
    [("query", Json.str r.query),
     ("found", Json.bool r.found),
     ("is_long_text", Json.bool r.is_long_text),
     ("pronunciation", optStrToJson r.pronunciation),
     ("pronunciation_us", optStrToJson r.pronunciation_us),
     ("pronunciation_uk", optStrToJson r.pronunciation_uk),
     ("translations", Json.arr (r.translations.map Json.str)),
     ("examples", Json.arr (r.examples.map pairToJson)),
     ("collins_items", Json.arr (r.collins_items.map collinsItemToJson)),
     ("collins_rank", optStrToJson r.collins_rank),
     ("source", querySourceToJson r.source),
     ("cached_at", optIntToJson r.cached_at)]

/-- Serde object-field lookup by name. -/
def getField (fields : List (String × Json)) (name : String) : Option Json :=
  (fields.find? (fun p => p.1 == name)).map (fun p => p.2)

/-- Sequencing a fallible parser over a list, as serde does for `Vec<T>`
elements (first failure fails the whole vector). -/
def optMapM {α β : Type} (f : α → Option β) : List α → Option (List β)
  | [] => some []
  | x :: xs =>
      match f x with
      | none => none
      | some y =>
          match optMapM f xs with
          | none => none
          | some ys => some (y :: ys)

/-- Serde deserialization of a required `String` field value. -/
def jsonToStr : Json → Option String
  | Json.str s => some s
  | _ => none

/-- Serde deserialization of a required `bool` field value. -/
def jsonToBool : Json → Option Bool
  | Json.bool b => some b
  | _ => none

/-- Serde deserialization of an `Option<String>` field: a missing field or
`null` is `None`. -/
def jsonToOptStr : Option Json → Option (Option String)
  | none => some none
  | some Json.null => some none
  | some (Json.str s) => some (some s)
  | _ => none

/-- Serde deserialization of an `Option<i64>` field. -/
def jsonToOptInt : Option Json → Option (Option Int)
  | none => some none
  | some Json.null => some none
  | some (Json.num n) => some (some n)
  | _ => none

/-- Serde deserialization of a `(String, String)` tuple. -/
def jsonToPair : Json → Option (String × String)
  | Json.arr [Json.str a, Json.str b] => some (a, b)
  | _ => none

/-- Serde deserialization of the externally tagged `OnlineSource` enum. -/
def jsonToOnlineSource : Json → Option OnlineSource
  | Json.str "Youdao" => some OnlineSource.youdao
  | Json.str "Bing" => some OnlineSource.bing
  | Json.str "Google" => some OnlineSource.google
  | _ => none

/-- Serde deserialization of the externally tagged `QuerySource` enum. -/
def jsonToQuerySource : Json → Option QuerySource
  | Json.str "OfflineDb" => some QuerySource.offlineDb
  | Json.str "LocalCache" => some QuerySource.localCache
  | Json.obj [("Online", j)] => (jsonToOnlineSource j).map QuerySource.online
  | _ => none

/-- Serde deserialization of `CollinsDisplayItem`. -/
def jsonToCollinsItem : Json → Option CollinsDisplayItem
  | Json.obj fields =>
      match jsonToOptStr (getField fields "additional") with
      | none => none
      | some additional =>
        match jsonToOptStr (getField fields "major_trans") with
        | none => none
        | some major_trans =>
          match getField fields "examples" with
          | some (Json.arr egs) =>
              match optMapM jsonToPair egs with
              | none => none
              | some examples => some ⟨additional, major_trans, examples⟩
          | _ => none
  | _ => none

/-- Serde deserialization of `QueryResult`, the parse performed by
`serde_json::from_slice` in `query_cache_impl`. -/
def jsonToQueryResult : Json → Option QueryResult
  | Json.obj fields =>
      match (getField fields "query").bind jsonToStr with
      | none => none
      | some query =>
      match (getField fields "found").bind jsonToBool with
      | none => none
      | some found =>
      match (getField fields "is_long_text").bind jsonToBool with
      | none => none
      | some is_long_text =>
      match jsonToOptStr (getField fields "pronunciation") with
      | none => none
      | some pronunciation =>
      match jsonToOptStr (getField fields "pronunciation_us") with
      | none => none
      | some pronunciation_us =>
      match jsonToOptStr (getField fields "pronunciation_uk") with
      | none => none
      | some pronunciation_uk =>
      match getField fields "translations" with
      | some (Json.arr ts) =>
        match optMapM jsonToStr ts with
        | none => none
        | some translations =>
        match getField fields "examples" with
        | some (Json.arr egs) =>
          match optMapM jsonToPair egs with
          | none => none
          | some examples =>
          match getField fields "collins_items" with
          | some (Json.arr cis) =>
            match optMapM jsonToCollinsItem cis with
            | none => none
            | some collins_items =>
            match jsonToOptStr (getField fields "collins_rank") with
            | none => none
            | some collins_rank =>
            match (getField fields "source").bind jsonToQuerySource with
            | none => none
            | some source =>
            match jsonToOptInt (getField fields "cached_at") with
            | none => none
            | some cached_at =>
                some ⟨query, found, is_long_text, pronunciation,
                      pronunciation_us, pronunciation_uk, translations,
                      examples, collins_items, collins_rank, source, cached_at⟩
          | _ => none
        | _ => none
      | _ => none
  | _ => none

/-- The encode direction of the Record Codec as composed in
`insert_cache_impl`: `serde_json::to_vec` (rendering the JSON tree to bytes,
abstracted as `render`) followed by zstd `encode_all` (abstracted as
`compress`). -/
def encodeRecord {β γ : Type} (render : Json → Option β)
    (compress : β → Option γ) (r : QueryResult) : Option γ :=
  (render (queryResultToJson r)).bind compress

/-- The decode direction of the Record Codec as composed in
`query_cache_impl`: zstd `decode_all` (abstracted as `decompress`) followed
by `serde_json::from_slice` (byte-level parsing abstracted as `parse`
producing a JSON tree, then `jsonToQueryResult`). -/
def decodeRecord {β γ : Type} (decompress : γ → Option β)
    (parse : β → Option Json) (blob : γ) : Option QueryResult :=
  (decompress blob).bind (fun b => (parse b).bind jsonToQueryResult)

theorem jsonToPair_round (p : String × String) : jsonToPair (pairToJson p) = some p := rfl

theorem optMapM_str_round (xs : List String) :
    optMapM jsonToStr (xs.map Json.str) = some xs := by
  induction xs with
  | nil => rfl
  | cons x xs ih => simp [optMapM, jsonToStr, ih]

theorem optMapM_pair_round (ps : List (String × String)) :
    optMapM jsonToPair (ps.map pairToJson) = some ps := by
  induction ps with
  | nil => rfl
  | cons p ps ih => simp [optMapM, jsonToPair_round, ih]

theorem jsonToOptStr_round (o : Option String) :
    jsonToOptStr (some (optStrToJson o)) = some o := by
  cases o <;> rfl

theorem jsonToOptInt_round (o : Option Int) :
    jsonToOptInt (some (optIntToJson o)) = some o := by
  cases o <;> rfl

theorem jsonToOnlineSource_round (p : OnlineSource) :
    jsonToOnlineSource (onlineSourceToJson p) = some p := by
  cases p <;> rfl

theorem jsonToQuerySource_round (s : QuerySource) :
    jsonToQuerySource (querySourceToJson s) = some s := by
  cases s with
  | online p => simp [querySourceToJson, jsonToQuerySource, jsonToOnlineSource_round]
  | offlineDb => rfl
  | localCache => rfl

theorem jsonToCollinsItem_round (c : CollinsDisplayItem) :
    jsonToCollinsItem (collinsItemToJson c) = some c := by
  obtain ⟨a, m, e⟩ := c
  cases a <;> cases m <;>
    simp [collinsItemToJson, jsonToCollinsItem, getField, List.find?,
      optStrToJson, jsonToOptStr, optMapM_pair_round]

theorem optMapM_collins_round (cs : List CollinsDisplayItem) :
    optMapM jsonToCollinsItem (cs.map collinsItemToJson) = some cs := by
  induction cs with
  | nil => rfl
  | cons c cs ih => simp [optMapM, jsonToCollinsItem_round, ih]

theorem jsonToQueryResult_round (r : QueryResult) :
    jsonToQueryResult (queryResultToJson r) = some r := by
  obtain ⟨q, f, lt, p, pus, puk, ts, egs, cis, cr, src, ca⟩ := r
  cases p <;> cases pus <;> cases puk <;> cases cr <;> cases ca <;>
    simp [queryResultToJson, jsonToQueryResult, getField, List.find?,
      jsonToStr, jsonToBool, jsonToOptStr, jsonToOptInt, optStrToJson,
      optIntToJson, optMapM_str_round, optMapM_pair_round,
      optMapM_collins_round, jsonToQuerySource_round]

/-- A concrete `found = true` record, used for concrete runs. -/
def catRecord : QueryResult :=
  { QueryResult.new "cat" false with found := true, translations := ["n. 猫"] }

/-- C1 counterexample: with an empty memory cache and a Persistent Store read
that fails (`dbGet = error sqlite`), `query_word` returns that very error to
the caller and never calls the Remote Provider — the failure is not treated
as a miss, contradicting the claim that the lookup falls through to the
Remote Provider and the error is never surfaced. -/
theorem c1_counterexample :
    (query_word "cat" false false none (Except.error KdError.sqlite)
        (Except.ok catRecord) (Except.ok ()) 0).1 = Except.error KdError.sqlite
    ∧ (query_word "cat" false false none (Except.error KdError.sqlite)
        (Except.ok catRecord) (Except.ok ()) 0).2.remoteCalled = false :=
  ⟨rfl, rfl⟩

/-- C1 (amended): if the Persistent Store read in step 2 of `query_word`
fails with an error, the lookup aborts: the `?` on `query_cache(...)`
propagates the error unchanged to the caller, the Remote Provider is not
called, and no cache tier is populated. -/
theorem c1_store_read_error_aborts_lookup (q : String) (flag : Bool)
    (e : KdError) (remote : Except KdError QueryResult)
    (dbPut : Except KdError Unit) (now : Int) :
    query_word q false flag none (Except.error e) remote dbPut now
      = (Except.error e, ⟨[], [], false⟩) :=
  rfl

/-- C4: on a Persistent Store hit (memory-cache miss, `dbGet = ok (some s)`),
the memory cache is populated with the raw stored record `s` before any
relabeling, and the returned record's `source` is `s.source` when that
source is a remote-provider tag (`Online(_)`), otherwise `OfflineDb`. -/
theorem c4_store_hit_populates_cache_and_relabels (q : String) (flag : Bool)
    (s : QueryResult) (remote : Except KdError QueryResult)
    (dbPut : Except KdError Unit) (now : Int) :
    (query_word q false flag none (Except.ok (some s)) remote dbPut now).2.cacheInserts
        = [(q, s)]
    ∧ (query_word q false flag none (Except.ok (some s)) remote dbPut now).1
        = Except.ok { s with
            source := if s.source.isOnline then s.source else QuerySource.offlineDb }
    ∧ (query_word q false flag none (Except.ok (some s)) remote dbPut now).2.remoteCalled
        = false :=
  ⟨rfl, rfl, rfl⟩

/-- C7: with `no_cache = true`, `query_word` is independent of the contents
of both cache tiers (it never reads them), inserts nothing into either tier,
and always calls the Remote Provider. -/
theorem c7_skip_cache_bypasses_both_tiers (q : String) (flag : Bool)
    (cg cg' : Option QueryResult) (dg dg' : Except KdError (Option QueryResult))
    (remote : Except KdError QueryResult) (dbPut : Except KdError Unit) (now : Int) :
    query_word q true flag cg dg remote dbPut now
        = query_word q true flag cg' dg' remote dbPut now
    ∧ (query_word q true flag cg dg remote dbPut now).2.cacheInserts = []
    ∧ (query_word q true flag cg dg remote dbPut now).2.dbWrites = []
    ∧ (query_word q true flag cg dg remote dbPut now).2.remoteCalled = true := by
  cases remote with
  | error e => exact ⟨rfl, rfl, rfl, rfl⟩
  | ok r0 => exact ⟨rfl, rfl, rfl, rfl⟩

/-- C10: the `is_long_text` argument of `query_word` affects only the Remote
Provider path.  A memory-cache hit returns the cached record (its long-text
flag included) with only the source relabeled; a Persistent Store hit
likewise returns the stored record with only the source relabeled; on the
remote path the flag is forced to `true` exactly when the argument is set,
and otherwise the provider's value is returned unchanged. -/
theorem c10_force_long_text_only_remote :
    (∀ (q : String) (flag : Bool) (c : QueryResult)
        (dg : Except KdError (Option QueryResult))
        (rm : Except KdError QueryResult) (dp : Except KdError Unit) (now : Int),
      (query_word q false flag (some c) dg rm dp now).1
        = Except.ok { c with source := QuerySource.localCache })
    ∧ (∀ (q : String) (flag : Bool) (s : QueryResult)
        (rm : Except KdError QueryResult) (dp : Except KdError Unit) (now : Int),
      (query_word q false flag none (Except.ok (some s)) rm dp now).1
        = Except.ok { s with
            source := if s.source.isOnline then s.source else QuerySource.offlineDb })
    ∧ (∀ (q : String) (nc : Bool) (r0 : QueryResult) (now : Int),
      Except.map QueryResult.is_long_text
          (query_word q nc true none (Except.ok none) (Except.ok r0)
            (Except.ok ()) now).1
        = Except.ok true)
    ∧ (∀ (q : String) (nc : Bool) (r0 : QueryResult) (now : Int),
      Except.map QueryResult.is_long_text
          (query_word q nc false none (Except.ok none) (Except.ok r0)
            (Except.ok ()) now).1
        = Except.ok r0.is_long_text) := by
  refine ⟨fun q flag c dg rm dp now => rfl, fun q flag s rm dp now => rfl, ?_, ?_⟩
  · intro q nc r0 now
    cases nc <;> cases hf : r0.found <;>
      simp [query_word, query_word_online, hf, Except.map]
  · intro q nc r0 now
    cases nc <;> cases hf : r0.found <;>
      simp [query_word, query_word_online, hf, Except.map]

theorem query_word_online_dbWrites_found (q : String) (nc flag : Bool)
    (rm : Except KdError QueryResult) (dp : Except KdError Unit) (now : Int)
    (p : String × QueryResult)
    (hp : p ∈ (query_word_online q nc flag rm dp now).2.dbWrites) :
    p.2.found = true := by
  cases rm with
  | error e => simp [query_word_online] at hp
  | ok r0 =>
    cases nc <;> cases flag <;> cases hf : r0.found <;> cases dp <;>
      simp [query_word_online, hf] at hp <;> simp [hp, hf]

theorem applyPron_found (pron : Option (List (String × String)))
    (r : QueryResult) : (applyPron pron r).found = r.found := by
  cases pron with
  | none => rfl
  | some m =>
    simp only [applyPron]
    cases hmGet m "美" <;> cases hmGet m "us" <;>
      cases hmGet m "英" <;> cases hmGet m "uk" <;> rfl

/-- C5: a `found = false` record is never handed to the Persistent Store.
Every database write performed by `query_word` (the step-4 write-back runs
only when the remote result has `found = true`) is of a record with
`found = true`, and every record produced by the migration conversion
`convert_legacy` has `found` forced to `true`. -/
theorem c5_found_false_never_persisted :
    (∀ (q : String) (nc flag : Bool) (cg : Option QueryResult)
        (dg : Except KdError (Option QueryResult))
        (rm : Except KdError QueryResult) (dp : Except KdError Unit) (now : Int)
        (p : String × QueryResult),
      p ∈ (query_word q nc flag cg dg rm dp now).2.dbWrites → p.2.found = true)
    ∧ (∀ legacy : LegacyResult, (convert_legacy legacy).found = true) := by
  constructor
  · intro q nc flag cg dg rm dp now p hp
    unfold query_word at hp
    cases nc with
    | true => exact query_word_online_dbWrites_found q true flag rm dp now p hp
    | false =>
      cases cg with
      | some c => simp at hp
      | none =>
        cases dg with
        | error e => simp at hp
        | ok o =>
          cases o with
          | some s => simp at hp
          | none => exact query_word_online_dbWrites_found q false flag rm dp now p hp
  · intro legacy
    obtain ⟨kw, pron, para, egs, co⟩ := legacy
    simp only [convert_legacy]
    cases para <;> cases egs <;>
      (cases co with
       | none => simp [applyPron_found, QueryResult.new]
       | some c =>
         obtain ⟨items, star, rank, pat⟩ := c
         cases rank <;> cases items <;> simp [applyPron_found, QueryResult.new])

/-- C5 witness: a concrete `query_word` run whose write-back fires (remote
result `catRecord` has `found = true`, caching enabled), instantiating the
theorem at the single record that run hands to the Persistent Store. -/
theorem c5_witness :
    ({ catRecord with cached_at := some 7 } : QueryResult).found = true :=
  c5_found_false_never_persisted.1 "cat" false false none (Except.ok none)
    (Except.ok catRecord) (Except.ok ()) 7
    ("cat", { catRecord with cached_at := some 7 })
    (List.mem_singleton.mpr rfl)

theorem applyPron_convention (u k : String) (r : QueryResult) :
    applyPron (some [("美", u), ("英", k)]) r
      = applyPron (some [("us", u), ("uk", k)]) r := by
  simp [applyPron, hmGet, List.find?]

/-- C9: `convert_legacy` is convention-independent for pronunciations — a
legacy record whose pronunciation map uses the English labels `us`/`uk`
converts to exactly the same `QueryResult` (in particular the same
`pronunciation_us`, `pronunciation_uk` and backward-compatible
`pronunciation` fields) as one using the Chinese labels `美`/`英` with the
same values. -/
theorem c9_pronunciation_convention_independent (kw : Option String)
    (para : Option (List String))
    (egs : Option (List (String × List (List String))))
    (co : Option CollinsData) (u k : String) :
    convert_legacy ⟨kw, some [("美", u), ("英", k)], para, egs, co⟩
      = convert_legacy ⟨kw, some [("us", u), ("uk", k)], para, egs, co⟩ := by
  simp only [convert_legacy, applyPron_convention]

/-- A concrete legacy record for concrete migration runs. -/
def sampleLegacy : LegacyResult := ⟨some "w", none, none, none, none⟩

/-- Concrete oracle: zlib decompression always fails (raw-bytes fallback). -/
def zlibNone : List Nat → Option (List Nat) := fun _ => none

/-- Concrete oracle: every payload parses to `sampleLegacy`. -/
def parseAlways : List Nat → Option LegacyResult := fun _ => some sampleLegacy

/-- Concrete oracle: every `batch_insert_cache` call fails. -/
def flushFail : Nat → List (String × QueryResult) → Except KdError Nat :=
  fun _ _ => Except.error KdError.sqlite

/-- C2 counterexample: a table of two parseable rows whose final (and only)
batch write fails.  The attempted final batch holds 2 rows, but the error
counter ends at 1, not 2 — the final-partial-batch failure path increments
the counter by one, contradicting the claim that every batch-level write
failure increments it by the attempted batch size. -/
theorem c2_counterexample :
    (migrate_table zlibNone parseAlways flushFail [("a", []), ("b", [])]).error_count = 1
    ∧ ¬ (migrate_table zlibNone parseAlways flushFail
          [("a", []), ("b", [])]).error_count = 2 :=
  ⟨rfl, by decide⟩

theorem migStep_batch_lt (zl : List Nat → Option (List Nat))
    (pl : List Nat → Option LegacyResult)
    (fl : Nat → List (String × QueryResult) → Except KdError Nat)
    (st : MigState) (row : String × List Nat)
    (h : st.batch.length < BATCH_SIZE) :
    (migStep zl pl fl st row).batch.length < BATCH_SIZE := by
  unfold migStep
  split
  · exact h
  · dsimp only
    split
    · split <;> simp [BATCH_SIZE]
    · next hge =>
      show (st.batch ++ [_]).length < BATCH_SIZE
      simp only [List.length_append, List.length_cons, List.length_nil,
        BATCH_SIZE, ge_iff_le] at *
      omega

/-- C2 (amended): an in-loop batch write failure in `migrate_data`
increments the table's error counter by `BATCH_SIZE` — which is exactly the
attempted batch size, because the in-loop batch is flushed the moment it
reaches `BATCH_SIZE` rows and the pending batch always holds fewer than
`BATCH_SIZE` rows (third conjunct) — empties the batch and continues; a
failure of the final partial batch flushed after the loop increments the
error counter by one, not by the attempted batch size. -/
theorem c2_batch_failure_error_counting :
    (∀ (zl : List Nat → Option (List Nat)) (pl : List Nat → Option LegacyResult)
        (fl : Nat → List (String × QueryResult) → Except KdError Nat)
        (st : MigState) (row : String × List Nat) (legacy : LegacyResult)
        (e : KdError),
      pl (migRowBytes zl row.2) = some legacy →
      (st.batch ++ [(row.1, convert_legacy legacy)]).length = BATCH_SIZE →
      fl st.flushes (st.batch ++ [(row.1, convert_legacy legacy)]) = Except.error e →
      migStep zl pl fl st row
        = ⟨st.count, st.error_count + BATCH_SIZE, [], st.flushes + 1⟩)
    ∧ (∀ (fl : Nat → List (String × QueryResult) → Except KdError Nat)
        (st : MigState) (e : KdError),
      st.batch ≠ [] →
      fl st.flushes st.batch = Except.error e →
      migFinish fl st
        = ⟨st.count, st.error_count + 1, [], st.flushes + 1⟩)
    ∧ (∀ (zl : List Nat → Option (List Nat)) (pl : List Nat → Option LegacyResult)
        (fl : Nat → List (String × QueryResult) → Except KdError Nat)
        (rows : List (String × List Nat)),
      ((rows.foldl (migStep zl pl fl) ⟨0, 0, [], 0⟩).batch).length < BATCH_SIZE) := by
  refine ⟨?_, ?_, ?_⟩
  · intro zl pl fl st row legacy e h1 h2 h3
    simp [migStep, h1, h2, h3]
  · intro fl st e hb h3
    obtain ⟨c, ec, b, f⟩ := st
    cases b with
    | nil => exact absurd rfl hb
    | cons x xs => simp [migFinish, h3]
  · intro zl pl fl rows
    have H : ∀ (rs : List (String × List Nat)) (st : MigState),
        st.batch.length < BATCH_SIZE →
        ((rs.foldl (migStep zl pl fl) st).batch).length < BATCH_SIZE := by
      intro rs
      induction rs with
      | nil => intro st h; exact h
      | cons r rest ih => intro st h; exact ih _ (migStep_batch_lt zl pl fl st r h)
    exact H rows _ (by simp [BATCH_SIZE])

/-- C2 witness: concrete instantiations of both failure paths — an in-loop
flush of a full 100-row batch that fails (error counter + 100) and a final
partial flush that fails (error counter + 1). -/
theorem c2_witness :
    migStep zlibNone parseAlways flushFail
        ⟨0, 0, List.replicate 99 ("x", convert_legacy sampleLegacy), 0⟩ ("z", [])
      = ⟨0, 0 + BATCH_SIZE, [], 0 + 1⟩
    ∧ migFinish flushFail ⟨0, 0, [("a", convert_legacy sampleLegacy)], 0⟩
      = ⟨0, 0 + 1, [], 0 + 1⟩ :=
  ⟨c2_batch_failure_error_counting.1 zlibNone parseAlways flushFail
      ⟨0, 0, List.replicate 99 ("x", convert_legacy sampleLegacy), 0⟩ ("z", [])
      sampleLegacy KdError.sqlite rfl (by simp [BATCH_SIZE]) rfl,
   c2_batch_failure_error_counting.2.1 flushFail
      ⟨0, 0, [("a", convert_legacy sampleLegacy)], 0⟩ KdError.sqlite
      (by simp) rfl⟩

/-- Concrete encoder: serialization always succeeds. -/
def serOk : QueryResult → Option (List Nat) := fun _ => some [1]

/-- Concrete compressor: the identity, always succeeds. -/
def compId : List Nat → Option (List Nat) := fun b => some b

/-- C3 counterexample: a one-item batch whose item encodes fine but whose
transaction fails to commit.  `batch_insert_cache` returns an error — it
does not report a success count of zero (there is no `ok` payload at all),
contradicting the claim that the call reports zero rows written. -/
theorem c3_counterexample :
    batch_insert_cache serOk compId 0 true [] [("cat", catRecord)]
        = Except.error KdError.sqlite
    ∧ (batch_insert_cache serOk compId 0 true [] [("cat", catRecord)]).toOption
        = none :=
  ⟨rfl, rfl⟩

/-- C3 (amended): if the transaction wrapping a non-empty prepared batch
fails to commit, `batch_insert_cache` returns an error to its caller (the
`?` on `db.call` propagates it); no success count is reported and no rows
are durably written.  (When every item failed to encode, no transaction is
opened and the call returns success count 0.) -/
theorem c3_commit_failure_returns_error
    (ser : QueryResult → Option (List Nat)) (comp : List Nat → Option (List Nat))
    (now : Int) (table : List CacheRow) (items : List (String × QueryResult))
    (h : prepareItems ser comp items ≠ []) :
    batch_insert_cache ser comp now true table items
      = Except.error KdError.sqlite := by
  simp [batch_insert_cache, List.isEmpty_iff, h]

/-- C3 witness: the amended theorem applied at the concrete one-item batch. -/
theorem c3_witness :
    batch_insert_cache serOk compId 0 true [] [("cat", catRecord)]
      = Except.error KdError.sqlite :=
  c3_commit_failure_returns_error serOk compId 0 [] [("cat", catRecord)]
    (by decide)

/-- Whether an item of a `putBatch` call fails to encode (serialization or
compression fails), i.e. is dropped by the `filter_map` of
`batch_insert_cache_impl`. -/
def encFails (ser : QueryResult → Option (List Nat))
    (comp : List Nat → Option (List Nat)) (it : String × QueryResult) : Bool :=
  match ser it.2 with
  | none => true
  | some s => (comp s).isNone

theorem prepareItems_length (ser : QueryResult → Option (List Nat))
    (comp : List Nat → Option (List Nat)) (items : List (String × QueryResult)) :
    (prepareItems ser comp items).length
        + (items.filter (fun it => encFails ser comp it)).length
      = items.length := by
  induction items with
  | nil => rfl
  | cons it its ih =>
    cases hs : ser it.2 with
    | none =>
      have hef : encFails ser comp it = true := by simp [encFails, hs]
      have hpre : prepareItems ser comp (it :: its) = prepareItems ser comp its := by
        simp [prepareItems, List.filterMap_cons, hs]
      rw [hpre, List.filter_cons, if_pos hef]
      simp only [List.length_cons]
      omega
    | some s =>
      cases hc : comp s with
      | none =>
        have hef : encFails ser comp it = true := by simp [encFails, hs, hc]
        have hpre : prepareItems ser comp (it :: its) = prepareItems ser comp its := by
          simp [prepareItems, List.filterMap_cons, hs, hc]
        rw [hpre, List.filter_cons, if_pos hef]
        simp only [List.length_cons]
        omega
      | some c =>
        have hef : encFails ser comp it = false := by simp [encFails, hs, hc]
        have hpre : prepareItems ser comp (it :: its)
            = (it.1, c, c.length, s.length) :: prepareItems ser comp its := by
          simp [prepareItems, List.filterMap_cons, hs, hc]
        rw [hpre, List.filter_cons, if_neg (by simp [hef])]
        simp only [List.length_cons]
        omega

theorem insertOrReplace_fresh (t : List CacheRow) (r : CacheRow)
    (h : ∀ row ∈ t, row.query ≠ r.query) :
    insertOrReplace t r = t ++ [r] := by
  have hany : t.any (fun row => row.query == r.query) = false := by
    rw [List.any_eq_false]
    intro row hrow
    simpa using h row hrow
  simp [insertOrReplace, hany]

theorem prepareItems_keys_sublist (ser : QueryResult → Option (List Nat))
    (comp : List Nat → Option (List Nat)) (items : List (String × QueryResult)) :
    ((prepareItems ser comp items).map (fun it => it.1)).Sublist
      (items.map (fun it => it.1)) := by
  induction items with
  | nil => simp [prepareItems]
  | cons it its ih =>
    cases hs : ser it.2 with
    | none =>
      have hpre : prepareItems ser comp (it :: its) = prepareItems ser comp its := by
        simp [prepareItems, List.filterMap_cons, hs]
      rw [hpre, List.map_cons]
      exact ih.cons _
    | some s =>
      cases hc : comp s with
      | none =>
        have hpre : prepareItems ser comp (it :: its) = prepareItems ser comp its := by
          simp [prepareItems, List.filterMap_cons, hs, hc]
        rw [hpre, List.map_cons]
        exact ih.cons _
      | some c =>
        have hpre : prepareItems ser comp (it :: its)
            = (it.1, c, c.length, s.length) :: prepareItems ser comp its := by
          simp [prepareItems, List.filterMap_cons, hs, hc]
        rw [hpre, List.map_cons, List.map_cons]
        exact ih.cons₂ _

theorem foldl_insertOrReplace_length (now : Int) :
    ∀ (prepared : List (String × List Nat × Nat × Nat)) (table : List CacheRow),
      (∀ p ∈ prepared, ∀ r ∈ table, r.query ≠ p.1) →
      ((prepared.map (fun p => p.1)).Nodup) →
      (prepared.foldl
          (fun t it => insertOrReplace t ⟨it.1, it.2.1, it.2.2.1, it.2.2.2, now, now⟩)
          table).length
        = table.length + prepared.length := by
  intro prepared
  induction prepared with
  | nil => intro table _ _; simp
  | cons p ps ih =>
    intro table hfresh hnodup
    rw [List.foldl_cons,
      insertOrReplace_fresh _ _ (fun row hrow => hfresh p (List.mem_cons_self p ps) row hrow)]
    simp only [List.map_cons, List.nodup_cons] at hnodup
    have hfresh2 : ∀ q ∈ ps,
        ∀ r ∈ table ++ [(⟨p.1, p.2.1, p.2.2.1, p.2.2.2, now, now⟩ : CacheRow)],
        r.query ≠ q.1 := by
      intro q hq r hr
      rcases List.mem_append.mp hr with hr | hr
      · exact hfresh q (List.mem_cons_of_mem _ hq) r hr
      · rcases List.mem_singleton.mp hr with rfl
        intro hEq
        have hEq2 : p.1 = q.1 := hEq
        refine hnodup.1 ?_
        rw [hEq2]
        exact List.mem_map_of_mem (fun p => p.1) hq
    rw [ih (table ++ [_]) hfresh2 hnodup.2]
    simp only [List.length_append, List.length_cons, List.length_nil]
    omega

/-- The table contents resulting from applying a committed `putBatch`'s
prepared rows: the per-row `INSERT OR REPLACE` loop of
`batch_insert_cache_impl`. -/
def appliedRows (ser : QueryResult → Option (List Nat))
    (comp : List Nat → Option (List Nat)) (now : Int)
    (table : List CacheRow) (items : List (String × QueryResult)) : List CacheRow :=
  (prepareItems ser comp items).foldl
    (fun t it => insertOrReplace t ⟨it.1, it.2.1, it.2.2.1, it.2.2.2, now, now⟩)
    table

/-- C6: for a batch of N items of which M < N fail to encode (serialization
or compression fails) and the transaction commits, `batch_insert_cache`
skips the failing items before the transaction opens, does not abort,
returns success count N−M, and — when the batch keys are distinct and not
already present — inserts exactly N−M rows into the table. -/
theorem c6_encoding_failures_skipped (ser : QueryResult → Option (List Nat))
    (comp : List Nat → Option (List Nat)) (now : Int)
    (table : List CacheRow) (items : List (String × QueryResult))
    (hM : (items.filter (fun it => encFails ser comp it)).length < items.length)
    (hfresh : ∀ it ∈ items, ∀ r ∈ table, r.query ≠ it.1)
    (hnodup : (items.map (fun it => it.1)).Nodup) :
    batch_insert_cache ser comp now false table items
        = Except.ok
            (items.length - (items.filter (fun it => encFails ser comp it)).length,
             appliedRows ser comp now table items)
    ∧ (appliedRows ser comp now table items).length
        = table.length
          + (items.length - (items.filter (fun it => encFails ser comp it)).length) := by
  have hlen := prepareItems_length ser comp items
  have hK : (prepareItems ser comp items).length
      = items.length - (items.filter (fun it => encFails ser comp it)).length := by
    omega
  have hne : prepareItems ser comp items ≠ [] := by
    intro h0
    have hz : (prepareItems ser comp items).length = 0 := by rw [h0]; rfl
    omega
  have hsub := prepareItems_keys_sublist ser comp items
  have hnodup2 : ((prepareItems ser comp items).map (fun p => p.1)).Nodup :=
    hnodup.sublist hsub
  have hfresh2 : ∀ p ∈ prepareItems ser comp items, ∀ r ∈ table, r.query ≠ p.1 := by
    intro p hp r hr
    have hmem : p.1 ∈ items.map (fun it => it.1) :=
      hsub.subset (List.mem_map_of_mem (fun it => it.1) hp)
    rcases List.mem_map.mp hmem with ⟨it, hit, he⟩
    exact fun hq => (hfresh it hit r hr) (hq.trans he.symm)
  constructor
  · simp [batch_insert_cache, appliedRows, List.isEmpty_iff, hne, hK]
  · unfold appliedRows
    rw [foldl_insertOrReplace_length now _ table hfresh2 hnodup2, hK]

/-- A second concrete `found = true` record whose key is "b". -/
def bRecord : QueryResult := { QueryResult.new "b" false with found := true }

/-- Concrete encoder that fails exactly on the record keyed "b". -/
def serB : QueryResult → Option (List Nat) :=
  fun r => if r.query == "b" then none else some [1]

/-- Concrete two-item batch of which exactly one item fails to encode. -/
def c6Items : List (String × QueryResult) := [("a", catRecord), ("b", bRecord)]

/-- C6 witness: the theorem applied at a concrete two-item batch (N = 2,
M = 1) against an empty table. -/
theorem c6_witness :
    batch_insert_cache serB compId 0 false [] c6Items
        = Except.ok
            (c6Items.length - (c6Items.filter (fun it => encFails serB compId it)).length,
             appliedRows serB compId 0 [] c6Items)
    ∧ (appliedRows serB compId 0 [] c6Items).length
        = ([] : List CacheRow).length
          + (c6Items.length - (c6Items.filter (fun it => encFails serB compId it)).length) :=
  c6_encoding_failures_skipped serB compId 0 [] c6Items (by decide) (by simp)
    (by decide)

/-- C8: the Record Codec round-trips.  For any record with `found = true`,
encoding as in `insert_cache_impl` (serde JSON serialization, then zstd
compression) and decoding as in `query_cache_impl` (zstd decompression, then
serde JSON parsing) returns a record equal to the original in every field,
assuming the external byte-level pairs invert each other (serde_json
rendering/parsing of a JSON tree, and zstd `encode_all`/`decode_all`); the
serde-derive level round-trip for the `QueryResult` shape is proved
concretely in `jsonToQueryResult_round`. -/
theorem c8_codec_roundtrip {β γ : Type}
    (render : Json → Option β) (parse : β → Option Json)
    (compress : β → Option γ) (decompress : γ → Option β)
    (hjson : ∀ j b, render j = some b → parse b = some j)
    (hzstd : ∀ b c, compress b = some c → decompress c = some b)
    (r : QueryResult) (_hfound : r.found = true) (blob : γ)
    (henc : encodeRecord render compress r = some blob) :
    decodeRecord decompress parse blob = some r := by
  unfold encodeRecord at henc
  rcases hb : render (queryResultToJson r) with _ | b
  · rw [hb] at henc
    simp at henc
  · rw [hb] at henc
    have hc : compress b = some blob := by simpa using henc
    unfold decodeRecord
    rw [hzstd b blob hc]
    simp [hjson _ _ hb, jsonToQueryResult_round]

/-- C8 witness: the round-trip theorem applied at the concrete record
`catRecord` (`found = true`) with identity-like render/compress pairs. -/
theorem c8_witness :
    decodeRecord (fun j : Json => some j) some (queryResultToJson catRecord)
      = some catRecord :=
  c8_codec_roundtrip (fun j => some j) some (fun j => some j) (fun j => some j)
    (fun j b h => by injection h with h; rw [h])
    (fun b c h => by injection h with h; rw [h])
    catRecord rfl (queryResultToJson catRecord) rfl
